import Mathlib

/-!
Verification of the Compotastic simulation core: a shallow embedding of
`src/backend/simulation/logic/__init__.py` (grid value types,
`GridWorldEnvironment`, `QLearningAgent`) and
`src/backend/simulation/runtime.py` (`MeshSimulation`), with theorems
settling the specification claims about them.

Conventions of the embedding:
* Python `int` becomes `Int` (and `Nat` for the tick counter, which is
  only ever incremented from 0).
* Python `float` becomes `ℚ`; `round(x, 2)` becomes round-half-to-even
  at two decimals over `ℚ`.
* Python `dict` becomes an insertion-ordered association list
  (`lookupA` / `insertA` / `removeA` below), which matches the
  iteration-order semantics that `QLearningAgent.policy` relies on.
* Python `set` of coordinates becomes a duplicate-free `List (Int × Int)`
  (`setInsert` / `setDiscard`).
* Raising an exception becomes returning `Except.error`.
* The injected `random.Random` generator becomes a `Rng` record of three
  streams: the successive `random()` values, the successive fractions
  used by `uniform(a, b) = a + (b - a) * fraction`, and the successive
  permutations produced by `shuffle`.
-/

namespace Compotastic

/-- Insertion-ordered association-list lookup (Python `dict.get`). -/
def lookupA {α β : Type} [DecidableEq α] : List (α × β) → α → Option β
  | [], _ => none
  | (k, v) :: rest, key => if k = key then some v else lookupA rest key

/-- Insertion-ordered association-list write (Python `dict[key] = value`):
replaces the value in place when the key is present, appends otherwise. -/
def insertA {α β : Type} [DecidableEq α] : List (α × β) → α → β → List (α × β)
  | [], key, value => [(key, value)]
  | (k, v) :: rest, key, value =>
    if k = key then (key, value) :: rest else (k, v) :: insertA rest key value

/-- Association-list removal (Python `dict.pop(key, None)`). -/
def removeA {α β : Type} [DecidableEq α] : List (α × β) → α → List (α × β)
  | [], _ => []
  | (k, v) :: rest, key => if k = key then rest else (k, v) :: removeA rest key

/-- `GridLocation`: immutable integer coordinate pair. -/
structure GridLocation where
  x : Int
  y : Int
deriving DecidableEq, Repr

/-- `GridLocation.translated`: a new location offset by the deltas. -/
def GridLocation.translated (l : GridLocation) (dx dy : Int) : GridLocation :=
  ⟨l.x + dx, l.y + dy⟩

/-- The closed `Action` enumeration (integer codes 0–6). -/
inductive Action where
  | MOVE_FORWARD
  | MOVE_BACKWARD
  | MOVE_LEFT
  | MOVE_RIGHT
  | DO_WORK
  | STOP
  | CALL_FOR_HELP
deriving DecidableEq, Repr

/-- The integer encoding of each `Action` member. -/
def Action.toInt : Action → Int
  | .MOVE_FORWARD => 0
  | .MOVE_BACKWARD => 1
  | .MOVE_LEFT => 2
  | .MOVE_RIGHT => 3
  | .DO_WORK => 4
  | .STOP => 5
  | .CALL_FOR_HELP => 6

/-- Decoding an integer to an `Action` (`Action(value)`), `none` where the
Python constructor raises `ValueError`. -/
def Action.ofInt? (a : Int) : Option Action :=
  if a = 0 then some .MOVE_FORWARD
  else if a = 1 then some .MOVE_BACKWARD
  else if a = 2 then some .MOVE_LEFT
  else if a = 3 then some .MOVE_RIGHT
  else if a = 4 then some .DO_WORK
  else if a = 5 then some .STOP
  else if a = 6 then some .CALL_FOR_HELP
  else none

/-- `_ACTION_TO_VECTOR`: grid delta of each movement action, `none` for
the non-movement actions. -/
def actionToVector? : Action → Option (Int × Int)
  | .MOVE_FORWARD => some (0, -1)
  | .MOVE_BACKWARD => some (0, 1)
  | .MOVE_LEFT => some (-1, 0)
  | .MOVE_RIGHT => some (1, 0)
  | _ => none

/-- `Surroundings`: which actions are currently available. -/
structure Surroundings where
  can_move_forward : Bool
  can_move_backward : Bool
  can_move_left : Bool
  can_move_right : Bool
  can_do_work : Bool
  can_stop : Bool
  can_call_for_help : Bool
deriving DecidableEq, Repr

/-- `Surroundings.action_mask`: bit `i` is set iff action `i` is legal. -/
def Surroundings.actionMask (s : Surroundings) : Int :=
  (if s.can_move_forward then 1 else 0)
    + (if s.can_move_backward then 2 else 0)
    + (if s.can_move_left then 4 else 0)
    + (if s.can_move_right then 8 else 0)
    + (if s.can_do_work then 16 else 0)
    + (if s.can_stop then 32 else 0)
    + (if s.can_call_for_help then 64 else 0)

/-- `Surroundings.available_actions`: legal action codes in enum order. -/
def Surroundings.availableActions (s : Surroundings) : List Int :=
  (if s.can_move_forward then [0] else [])
    ++ (if s.can_move_backward then [1] else [])
    ++ (if s.can_move_left then [2] else [])
    ++ (if s.can_move_right then [3] else [])
    ++ (if s.can_do_work then [4] else [])
    ++ (if s.can_stop then [5] else [])
    ++ (if s.can_call_for_help then [6] else [])

/-- `NodeState`: a location together with its surroundings. -/
structure NodeState where
  location : GridLocation
  surroundings : Surroundings

/-- `NodeState.encode`: `position_index * 2^7 + surroundings_mask`, where
`position_index = y * grid_width + x`; `none` where Python raises on a
non-positive grid width. -/
def NodeState.encode (ns : NodeState) (grid_width : Int) : Option Int :=
  if grid_width ≤ 0 then none
  else some ((ns.location.y * grid_width + ns.location.x) * 128 + ns.surroundings.actionMask)

/-- `MeshtasticNode`: agent value data. -/
structure MeshtasticNode where
  identifier : String
  battery_level : ℚ
  compute_efficiency_flops_per_milliamp : ℚ
  location : GridLocation
deriving DecidableEq, Repr

/-- `MeshtasticNode.with_location`. -/
def MeshtasticNode.withLocation (n : MeshtasticNode) (l : GridLocation) : MeshtasticNode :=
  { n with location := l }

/-- `GridWorldEnvironment`: grid dimensions, the reward map, and the
last-known-node cache keyed by identifier. -/
structure GridWorldEnvironment where
  width : Int
  height : Int
  rewards : List ((Int × Int) × Int)
  node_states : List (String × MeshtasticNode)
deriving DecidableEq, Repr

/-- `GridWorldEnvironment._within_bounds`. -/
def GridWorldEnvironment.withinBounds (e : GridWorldEnvironment) (l : GridLocation) : Bool :=
  decide (0 ≤ l.x ∧ l.x < e.width ∧ 0 ≤ l.y ∧ l.y < e.height)

/-- `GridWorldEnvironment._is_border`. -/
def GridWorldEnvironment.isBorder (e : GridWorldEnvironment) (l : GridLocation) : Bool :=
  decide (l.x = 0 ∨ l.y = 0 ∨ l.x = e.width - 1 ∨ l.y = e.height - 1)

/-- `GridWorldEnvironment.is_passable`. -/
def GridWorldEnvironment.isPassable (e : GridWorldEnvironment) (l : GridLocation) : Bool :=
  e.withinBounds l && !(e.isBorder l)

/-- `GridWorldEnvironment.surroundings_for`; `none` where Python raises
on an out-of-bounds or border location. -/
def GridWorldEnvironment.surroundingsFor (e : GridWorldEnvironment) (l : GridLocation) :
    Option Surroundings :=
  if ¬ e.withinBounds l then none
  else if e.isBorder l then none
  else some
    { can_move_forward := e.isPassable (l.translated 0 (-1))
      can_move_backward := e.isPassable (l.translated 0 1)
      can_move_left := e.isPassable (l.translated (-1) 0)
      can_move_right := e.isPassable (l.translated 1 0)
      can_do_work := true
      can_stop := true
      can_call_for_help := true }

/-- `GridWorldEnvironment.encode_state`. -/
def GridWorldEnvironment.encodeState (e : GridWorldEnvironment) (l : GridLocation) : Option Int :=
  match e.surroundingsFor l with
  | none => none
  | some s => NodeState.encode ⟨l, s⟩ e.width

/-- `GridWorldEnvironment.reward_at`: stored reward, 0 when none is set. -/
def GridWorldEnvironment.rewardAt (e : GridWorldEnvironment) (l : GridLocation) : Int :=
  (lookupA e.rewards (l.x, l.y)).getD 0

/-- Modelled from the spec: `GridWorldEnvironment.set_reward` is part of the
environment's public contract in the specification ("`set_reward(location,
value)` overwrites") and is called from `MeshSimulation.add_reward_tile` and
`MeshSimulation._consume_reward_tile`, but its definition is absent from the
sources; it overwrites the reward stored for the given location. -/
def GridWorldEnvironment.setReward (e : GridWorldEnvironment) (l : GridLocation) (v : Int) :
    GridWorldEnvironment :=
  { e with rewards := insertA e.rewards (l.x, l.y) v }

/-- The node-reconciliation prelude of `GridWorldEnvironment.step`
(lines 305–319): when a record is cached for the identifier, the cached
record wins, adopting only battery level and compute efficiency from the
caller's copy. -/
def GridWorldEnvironment.resolveNode (e : GridWorldEnvironment) (node : MeshtasticNode) :
    MeshtasticNode :=
  match lookupA e.node_states node.identifier with
  | none => node
  | some active =>
    if node.battery_level ≠ active.battery_level ∨
        node.compute_efficiency_flops_per_milliamp ≠
          active.compute_efficiency_flops_per_milliamp then
      { active with
        battery_level := node.battery_level
        compute_efficiency_flops_per_milliamp := node.compute_efficiency_flops_per_milliamp }
    else active

/-- Lift an `Option` into `Except` (a Python call that may raise). -/
def liftOpt {α : Type} (o : Option α) (msg : String) : Except String α :=
  match o with
  | some a => .ok a
  | none => .error msg

/-- `GridWorldEnvironment.step`: the transition function. Returns the
updated environment together with Python's `(next_state_id, updated_node,
reward, done)`; `Except.error` where Python raises. -/
def GridWorldEnvironment.step (e : GridWorldEnvironment) (node : MeshtasticNode) (action : Int) :
    Except String (GridWorldEnvironment × Int × MeshtasticNode × Int × Bool) :=
  match Action.ofInt? action with
  | none => .error "Unknown action"
  | some resolved_action =>
    let active_node := e.resolveNode node
    let e1 : GridWorldEnvironment :=
      { e with node_states := insertA e.node_states node.identifier active_node }
    match e1.surroundingsFor active_node.location with
    | none => .error "invalid location"
    | some surroundings =>
      let available := surroundings.availableActions
      if action ∉ available then
        match e1.encodeState active_node.location with
        | none => .error "invalid location"
        | some c => .ok (e1, c, active_node, -1, false)
      else
        match actionToVector? resolved_action with
        | some (dx, dy) =>
          let new_location := active_node.location.translated dx dy
          if ¬ e1.isPassable new_location then
            match e1.encodeState active_node.location with
            | none => .error "invalid location"
            | some c => .ok (e1, c, active_node, -1, false)
          else
            let reward := e1.rewardAt new_location
            let updated_node := active_node.withLocation new_location
            let e2 : GridWorldEnvironment :=
              { e1 with node_states := insertA e1.node_states node.identifier updated_node }
            match e2.encodeState new_location with
            | none => .error "invalid location"
            | some c => .ok (e2, c, updated_node, reward, false)
        | none =>
          match e1.encodeState active_node.location with
          | none => .error "invalid location"
          | some c =>
            if resolved_action = .DO_WORK then
              .ok (e1, c, active_node, e1.rewardAt active_node.location, false)
            else if resolved_action = .STOP then
              .ok (e1, c, active_node, 0, true)
            else if resolved_action = .CALL_FOR_HELP then
              .ok (e1, c, active_node, -1, false)
            else
              .ok (e1, c, active_node, 0, false)

/-- `QLearningAgent`: hyperparameters and the sparse
state → action → value table (`_q_table`), insertion-ordered like the
Python dictionaries it is made of. -/
structure QLearningAgent where
  learning_rate : ℚ
  discount_factor : ℚ
  exploration_rate : ℚ
  q_table : List (Int × List (Int × ℚ))
deriving DecidableEq, Repr

/-- `QLearningAgent.get_q_value`: 0.0 default for unseen pairs. -/
def QLearningAgent.getQ (ag : QLearningAgent) (state action : Int) : ℚ :=
  (lookupA ((lookupA ag.q_table state).getD []) action).getD 0

/-- `QLearningAgent._set_q_value`: `setdefault(state, {})` then
`state_values[action] = value`. -/
def QLearningAgent.setQ (ag : QLearningAgent) (state action : Int) (value : ℚ) :
    QLearningAgent :=
  let state_values := (lookupA ag.q_table state).getD []
  { ag with q_table := insertA ag.q_table state (insertA state_values action value) }

/-- The `max(next_values) if next_values else 0.0` step of
`QLearningAgent.learn`. -/
def QLearningAgent.bestNextQ (ag : QLearningAgent) (next_state : Int)
    (next_available_actions : List Int) : ℚ :=
  match next_available_actions.map (fun a => ag.getQ next_state a) with
  | [] => 0
  | v :: vs => vs.foldl max v

/-- `QLearningAgent.learn`: the tabular Bellman update. -/
def QLearningAgent.learn (ag : QLearningAgent) (state action : Int) (reward : ℚ)
    (next_state : Int) (next_available_actions : List Int) : QLearningAgent :=
  let current_q := ag.getQ state action
  let best_next_q := ag.bestNextQ next_state next_available_actions
  let updated_q := (1 - ag.learning_rate) * current_q
      + ag.learning_rate * (reward + ag.discount_factor * best_next_q)
  ag.setQ state action updated_q

/-- Python `max(items, key=get)` over an insertion-ordered dictionary:
the first key attaining the maximal value. -/
def argmaxFirst : List (Int × ℚ) → Option Int
  | [] => none
  | (a, v) :: rest =>
    some ((rest.foldl (fun best p => if p.2 > best.2 then p else best) (a, v)).1)

/-- `QLearningAgent.policy`: greedy action for a visited state, `none`
for an unvisited state (or one whose action dictionary is empty). -/
def QLearningAgent.policy (ag : QLearningAgent) (state : Int) : Option Int :=
  match lookupA ag.q_table state with
  | none => none
  | some [] => none
  | some (p :: rest) => argmaxFirst (p :: rest)

/-- Boolean `<` on ℚ by cross-multiplication (kernel-computable; proven
equal to the order on ℚ in `ratLt_iff`). Used wherever the Python runtime
compares floats. -/
def ratLt (a b : ℚ) : Bool :=
  decide (a.num * (b.den : Int) < b.num * (a.den : Int))

/-- Python `max` on two floats. -/
def ratMax (a b : ℚ) : ℚ := if ratLt a b then b else a

/-- Python `min` on two floats. -/
def ratMin (a b : ℚ) : ℚ := if ratLt b a then b else a

/-- Round half to even (Python `round`) of a rational to an integer. -/
def roundHalfEven (x : ℚ) : Int :=
  let f := ⌊x⌋
  let r := x - f
  if r < 1 / 2 then f
  else if 1 / 2 < r then f + 1
  else if f % 2 = 0 then f else f + 1

/-- Python `round(x, 2)`. -/
def round2 (x : ℚ) : ℚ := (roundHalfEven (x * 100) : ℚ) / 100

/-- The injected `random.Random`: a stream of `random()` values, a stream
of fractions realizing `uniform(a, b) = a + (b - a)·fraction`, and a
stream of proposed permutations realizing `shuffle`. -/
structure Rng where
  randF : Nat → ℚ
  randIdx : Nat
  unifF : Nat → ℚ
  unifIdx : Nat
  shufF : Nat → List Int
  shufIdx : Nat

/-- `random()`. -/
def Rng.random (r : Rng) : ℚ × Rng :=
  (r.randF r.randIdx, { r with randIdx := r.randIdx + 1 })

/-- `uniform(a, b)`. -/
def Rng.uniform (r : Rng) (a b : ℚ) : ℚ × Rng :=
  (a + (b - a) * r.unifF r.unifIdx, { r with unifIdx := r.unifIdx + 1 })

/-- `shuffle(xs)`: the next proposed reordering when it is a permutation
of the input, the input unchanged otherwise. -/
def Rng.shuffle (r : Rng) (xs : List Int) : List Int × Rng :=
  let proposed := r.shufF r.shufIdx
  ((if xs.isPerm proposed then proposed else xs), { r with shufIdx := r.shufIdx + 1 })

/-- Python `set.add` over a duplicate-free coordinate list. -/
def setInsert (s : List (Int × Int)) (c : Int × Int) : List (Int × Int) :=
  if c ∈ s then s else c :: s

/-- Python `set.discard` over a duplicate-free coordinate list. -/
def setDiscard (s : List (Int × Int)) (c : Int × Int) : List (Int × Int) :=
  s.filter (fun d => decide (d ≠ c))

/-- Add each node's coordinates to a coordinate set (the set
comprehensions building the occupied sets in `MeshSimulation.step`). -/
def addCoords (s : List (Int × Int)) (nodes : List MeshtasticNode) : List (Int × Int) :=
  nodes.foldl (fun acc n => setInsert acc (n.location.x, n.location.y)) s

/-- `SimulationGrid`. -/
structure SimulationGrid where
  width : Int
  height : Int
deriving DecidableEq, Repr

/-- `RewardTile`. -/
structure RewardTile where
  location : GridLocation
  value : Int
deriving DecidableEq, Repr

/-- `MeshSimulation` state: grid, reward tiles, alerts, the environment,
the tick counter, the model registry and the two agent groups. -/
structure MeshSimulation where
  grid : SimulationGrid
  reward_tiles : List RewardTile
  alerts : List (String × String)
  environment : GridWorldEnvironment
  tick : Nat
  models : List (String × QLearningAgent)
  cats : List MeshtasticNode
  dogs : List MeshtasticNode

/-- `self._cat_idle_chance = 0.25` (kernel-computable rational literal). -/
def catIdleChance : ℚ := ⟨1, 4, by decide, by decide⟩

/-- `self._dog_idle_chance = 0.45` (kernel-computable rational literal). -/
def dogIdleChance : ℚ := ⟨9, 20, by decide, by decide⟩

/-- `self._dog_move_interval = 3`. -/
def dogMoveInterval : Nat := 3

/-- `MeshSimulation._is_interior`. -/
def MeshSimulation.isInterior (sim : MeshSimulation) (l : GridLocation) : Bool :=
  decide (0 < l.x ∧ l.x < sim.grid.width - 1 ∧ 0 < l.y ∧ l.y < sim.grid.height - 1)

/-- The replacement loop of `add_reward_tile`: walk the tiles in order,
swapping in the new tile at the matching location; report whether a
replacement happened. -/
def replaceTiles (tiles : List RewardTile) (l : GridLocation) (tile : RewardTile) :
    List RewardTile × Bool :=
  match tiles with
  | [] => ([], false)
  | t :: ts =>
    let r := replaceTiles ts l tile
    if t.location = l then (tile :: r.1, true) else (t :: r.1, r.2)

/-- `MeshSimulation.add_reward_tile`. -/
def MeshSimulation.addRewardTile (sim : MeshSimulation) (location : GridLocation)
    (value : Int) : Except String MeshSimulation :=
  if ¬ sim.isInterior location then
    .error "Rewards must be placed within the traversable interior"
  else
    let tile : RewardTile := ⟨location, value⟩
    let (updated, replaced) := replaceTiles sim.reward_tiles location tile
    let updated := if replaced then updated else updated ++ [tile]
    .ok { sim with
      reward_tiles := updated
      environment := sim.environment.setReward location value }

/-- `MeshSimulation._consume_reward_tile`. -/
def MeshSimulation.consumeRewardTile (sim : MeshSimulation) (location : GridLocation)
    (reward_value : Int) : MeshSimulation :=
  if reward_value = 0 then sim
  else
    { sim with
      environment := sim.environment.setReward location 0
      reward_tiles := sim.reward_tiles.filter (fun t => decide (t.location ≠ location)) }

/-- `MeshSimulation._set_alert`. -/
def MeshSimulation.setAlert (sim : MeshSimulation) (identifier message : String) :
    MeshSimulation :=
  { sim with alerts := insertA sim.alerts identifier message }

/-- `MeshSimulation._clear_alert`. -/
def MeshSimulation.clearAlert (sim : MeshSimulation) (identifier : String) :
    MeshSimulation :=
  { sim with alerts := removeA sim.alerts identifier }

/-- `MeshSimulation._drain_battery`: subtract a uniform draw from
`[0.05, 0.35]`, clamp at zero, round to two decimals. -/
def drainBattery (node : MeshtasticNode) (rng : Rng) : MeshtasticNode × Rng :=
  let u := rng.uniform (1 / 20) (7 / 20)
  let new_level := ratMax (node.battery_level - u.1) 0
  ({ node with battery_level := round2 new_level }, u.2)

/-- The `[STOP]`-or-empty fallback ranking. -/
def stopFallback (allow_stop : Bool) : List Int :=
  if allow_stop then [5] else []

/-- Stable descending insertion (ties keep earlier elements first),
matching Python's stable `sorted(..., reverse=True)`. -/
def insertDesc (key : Int → ℚ) (a : Int) : List Int → List Int
  | [] => [a]
  | b :: bs => if ratLt (key a) (key b) then b :: insertDesc key a bs else a :: b :: bs

/-- Stable sort by strictly descending key. -/
def sortDesc (key : Int → ℚ) (xs : List Int) : List Int :=
  xs.foldr (insertDesc key) []

/-- `MeshSimulation._rank_actions`. -/
def MeshSimulation.rankActions (sim : MeshSimulation) (node : MeshtasticNode)
    (available_actions : List Int) (allow_stop : Bool) : List Int :=
  let filtered_actions := available_actions.filter (fun a => allow_stop || decide (a ≠ 5))
  match lookupA sim.models node.identifier with
  | none => stopFallback allow_stop
  | some model =>
    match sim.environment.encodeState node.location with
    | none => stopFallback allow_stop
    | some state =>
      match model.policy state with
      | none => stopFallback allow_stop
      | some policy_action =>
        let base := if filtered_actions.isEmpty then available_actions else filtered_actions
        let ranked := sortDesc (fun a => model.getQ state a) base
        let preferred : Option Int :=
          if !allow_stop && decide (policy_action = 5) then
            ranked.find? (fun a => decide (a ≠ 5))
          else some policy_action
        match preferred with
        | none => stopFallback allow_stop
        | some p =>
          if ranked.isEmpty || decide (p ∉ ranked) then stopFallback allow_stop
          else p :: ranked.filter (fun a => decide (a ≠ p))

/-- The commit loop of `_move_node`: walk the ranked actions, skipping
undecodable codes and movements into occupied cells, committing the first
survivor through the environment's `step`. -/
def MeshSimulation.tryRanked (sim : MeshSimulation) (node : MeshtasticNode)
    (occupied : List (Int × Int)) :
    List Int → Except String (Option (GridWorldEnvironment × MeshtasticNode))
  | [] => .ok none
  | a :: rest =>
    match Action.ofInt? a with
    | none => sim.tryRanked node occupied rest
    | some resolved_action =>
      match actionToVector? resolved_action with
      | some (dx, dy) =>
        if (node.location.x + dx, node.location.y + dy) ∈ occupied then
          sim.tryRanked node occupied rest
        else
          match sim.environment.step node a with
          | .error msg => .error msg
          | .ok (env1, _, candidate, _, _) => .ok (some (env1, candidate))
      | none =>
        match sim.environment.step node a with
        | .error msg => .error msg
        | .ok (env1, _, candidate, _, _) => .ok (some (env1, candidate))

/-- The randomized movement scan of `_fallback_cat_action`. -/
def fallbackScan (env : GridWorldEnvironment) (node : MeshtasticNode)
    (occupied : List (Int × Int)) :
    List Int → Except String (Option (GridWorldEnvironment × MeshtasticNode))
  | [] => .ok none
  | a :: rest =>
    match Action.ofInt? a with
    | none => .error "Unknown action"
    | some resolved =>
      match actionToVector? resolved with
      | none => .error "KeyError"
      | some (dx, dy) =>
        if (node.location.x + dx, node.location.y + dy) ∈ occupied then
          fallbackScan env node occupied rest
        else
          match env.step node a with
          | .error msg => .error msg
          | .ok (env1, _, candidate, _, _) => .ok (some (env1, candidate))

/-- The `DO_WORK`-or-hold tail of `_fallback_cat_action`. -/
def fallbackCatWork (env : GridWorldEnvironment) (rng : Rng) (node : MeshtasticNode)
    (available_actions : List Int) :
    Except String (MeshtasticNode × GridWorldEnvironment × Rng) :=
  if (4 : Int) ∈ available_actions then
    match env.step node 4 with
    | .error msg => .error msg
    | .ok (env1, _, working_node, _, _) =>
      let (n2, rng1) := drainBattery working_node rng
      .ok (n2, env1, rng1)
  else
    let (n2, rng1) := drainBattery node rng
    .ok (n2, env, rng1)

/-- `MeshSimulation._fallback_cat_action`. -/
def fallbackCatAction (env : GridWorldEnvironment) (rng : Rng) (node : MeshtasticNode)
    (available_actions : List Int) (occupied : List (Int × Int)) :
    Except String (MeshtasticNode × GridWorldEnvironment × Rng) :=
  let movement_actions :=
    available_actions.filter (fun a => decide (a = 0 ∨ a = 1 ∨ a = 2 ∨ a = 3))
  if movement_actions.isEmpty then fallbackCatWork env rng node available_actions
  else
    let (shuffled, rng1) := rng.shuffle movement_actions
    match fallbackScan env node occupied shuffled with
    | .error msg => .error msg
    | .ok (some (env1, candidate)) =>
      let (n2, rng2) := drainBattery candidate rng1
      .ok (n2, env1, rng2)
    | .ok none => fallbackCatWork env rng1 node available_actions

/-- `MeshSimulation._enter_stop_state`. -/
def MeshSimulation.enterStopState (sim : MeshSimulation) (rng : Rng)
    (node : MeshtasticNode) : Except String (MeshtasticNode × MeshSimulation × Rng) :=
  match sim.environment.step node 5 with
  | .error msg => .error msg
  | .ok (env1, _, halted_node, _, _) =>
    let (n2, rng1) := drainBattery halted_node rng
    .ok (n2, { sim with environment := env1 }, rng1)

/-- `MeshSimulation._handle_no_viable_action`. -/
def MeshSimulation.handleNoViableAction (sim : MeshSimulation) (rng : Rng)
    (node : MeshtasticNode) (reason : String) :
    Except String (MeshtasticNode × MeshSimulation × Rng) :=
  (sim.setAlert node.identifier reason).enterStopState rng node

/-- `MeshSimulation._handle_no_available_actions`. -/
def MeshSimulation.handleNoAvailableActions (sim : MeshSimulation) (rng : Rng)
    (node : MeshtasticNode) (agent_type : String) :
    Except String (MeshtasticNode × MeshSimulation × Rng) :=
  if agent_type = "dog" then
    sim.handleNoViableAction rng node "Dog has no available actions"
  else
    let (n2, rng1) := drainBattery node rng
    .ok (n2, sim, rng1)

/-- `MeshSimulation._move_node`. -/
def MeshSimulation.moveNode (sim : MeshSimulation) (rng : Rng) (node : MeshtasticNode)
    (occupied : List (Int × Int)) (agent_type : String) (idle_probability : ℚ) :
    Except String (MeshtasticNode × MeshSimulation × Rng) :=
  let p := ratMin (ratMax idle_probability 0) 1
  let (r, rng1) := rng.random
  if ratLt r p then
    let sim1 := if agent_type = "dog" then sim.clearAlert node.identifier else sim
    let (n2, rng2) := drainBattery node rng1
    .ok (n2, sim1, rng2)
  else
    match sim.environment.surroundingsFor node.location with
    | none => .error "location must be within the grid bounds"
    | some surroundings =>
      let actions := surroundings.availableActions
      if actions.isEmpty then sim.handleNoAvailableActions rng1 node agent_type
      else
        if agent_type = "cat" ∧ 0 < sim.environment.rewardAt node.location ∧
            (4 : Int) ∈ actions then
          match sim.environment.step node 4 with
          | .error msg => .error msg
          | .ok (env1, _, working_node, reward, _) =>
            let sim1 :=
              ({ sim with environment := env1 }).consumeRewardTile working_node.location reward
            let (n2, rng2) := drainBattery working_node rng1
            .ok (n2, sim1, rng2)
        else
          let ranked_actions := sim.rankActions node actions (decide (agent_type ≠ "cat"))
          match sim.tryRanked node occupied ranked_actions with
          | .error msg => .error msg
          | .ok (some (env1, candidate)) =>
            let sim1 := { sim with environment := env1 }
            let sim2 := if agent_type = "dog" then sim1.clearAlert node.identifier else sim1
            let (n2, rng2) := drainBattery candidate rng1
            .ok (n2, sim2, rng2)
          | .ok none =>
            if agent_type = "cat" then
              match fallbackCatAction sim.environment rng1 node actions occupied with
              | .error msg => .error msg
              | .ok (n2, env1, rng2) => .ok (n2, { sim with environment := env1 }, rng2)
            else
              sim.handleNoViableAction rng1 node "No viable action from trained model"

/-- `MeshSimulation._advance_group`: discard each node's current cell from
the occupied set, move it, and claim its new cell. -/
def MeshSimulation.advanceGroup (sim : MeshSimulation) (rng : Rng)
    (nodes : List MeshtasticNode) (occupied : List (Int × Int)) (agent_type : String)
    (idle_probability : ℚ) :
    Except String (List MeshtasticNode × MeshSimulation × Rng × List (Int × Int)) :=
  match nodes with
  | [] => .ok ([], sim, rng, occupied)
  | node :: rest =>
    match sim.moveNode rng node (setDiscard occupied (node.location.x, node.location.y))
        agent_type idle_probability with
    | .error msg => .error msg
    | .ok (next_node, sim1, rng1) =>
      match sim1.advanceGroup rng1 rest
          (setInsert (setDiscard occupied (node.location.x, node.location.y))
            (next_node.location.x, next_node.location.y)) agent_type idle_probability with
      | .error msg => .error msg
      | .ok (updated, sim2, rng2, occupied3) =>
        .ok (next_node :: updated, sim2, rng2, occupied3)

/-- `MeshSimulation.step`: one tick — cats first against current dog
positions, then dogs against new cat and current dog positions, dogs
forced idle off their move interval. -/
def MeshSimulation.step (sim : MeshSimulation) (rng : Rng) :
    Except String (MeshSimulation × Rng) :=
  let sim1 : MeshSimulation := { sim with tick := sim.tick + 1 }
  let occupied_for_cats := addCoords [] sim1.dogs
  match sim1.advanceGroup rng sim1.cats occupied_for_cats "cat" catIdleChance with
  | .error msg => .error msg
  | .ok (cats1, sim2, rng1, _) =>
    let sim3 : MeshSimulation := { sim2 with cats := cats1 }
    let occupied_for_dogs := addCoords (addCoords [] sim3.cats) sim3.dogs
    let dog_idle_probability :=
      if sim3.tick % dogMoveInterval = 0 then dogIdleChance else 1
    match sim3.advanceGroup rng1 sim3.dogs occupied_for_dogs "dog" dog_idle_probability with
    | .error msg => .error msg
    | .ok (dogs1, sim4, rng2, _) => .ok ({ sim4 with dogs := dogs1 }, rng2)

/-- The simulation fields `_move_node` can never touch. -/
def simFrame (sim sim' : MeshSimulation) : Prop :=
  sim'.cats = sim.cats ∧ sim'.dogs = sim.dogs ∧ sim'.tick = sim.tick

/-- The generator streams, which no draw ever changes (draws only move
the indices). -/
def rngFrame (rng rng' : Rng) : Prop :=
  rng'.randF = rng.randF ∧ rng'.unifF = rng.unifF

/-- The example agent of the specification:
`QLearningAgent(learning_rate=0.5, discount_factor=0.5)` (default
exploration rate 0.1), fresh table. -/
def exampleAgent : QLearningAgent :=
  { learning_rate := 1/2, discount_factor := 1/2, exploration_rate := 1/10, q_table := [] }

/-- A 5×5 environment with no rewards and an empty node cache. -/
def wEnv : GridWorldEnvironment := ⟨5, 5, [], []⟩

/-- A node standing at the interior corner (1,1). -/
def wNode : MeshtasticNode := ⟨"cat-1", 90, 10000, ⟨1, 1⟩⟩

/-- The surroundings of (1,1) in a 5×5 grid. -/
def wS : Surroundings := ⟨false, true, false, true, true, true, true⟩

/-- The surroundings of (2,1) in a 5×5 grid. -/
def wS2 : Surroundings := ⟨false, true, true, true, true, true, true⟩

/-- A node cached in the environment at (2,2). -/
def wCached : MeshtasticNode := ⟨"cat-1", 80, 9000, ⟨2, 2⟩⟩

/-- A 5×5 environment whose cache holds `wCached`. -/
def wEnvCached : GridWorldEnvironment := ⟨5, 5, [], [("cat-1", wCached)]⟩

/-- A node standing at the grid centre (2,2). -/
def wNodeC : MeshtasticNode := ⟨"cat-1", 90, 10000, ⟨2, 2⟩⟩

/-- A 5×5 environment with a reward of 7 at (2,2) and an empty cache. -/
def wEnvR : GridWorldEnvironment := ⟨5, 5, [((2, 2), 7)], []⟩

/-- First cat of the duplicate-position scenario, at (2,2). -/
def c1CatOne : MeshtasticNode := ⟨"cat-1", 90, 10000, ⟨2, 2⟩⟩

/-- Second cat of the duplicate-position scenario, right above at (2,1). -/
def c1CatTwo : MeshtasticNode := ⟨"cat-2", 90, 10000, ⟨2, 1⟩⟩

/-- A fresh 5×5 simulation with the two adjacent cats, no dogs, no
models, no rewards. -/
def c1Sim : MeshSimulation :=
  { grid := ⟨5, 5⟩, reward_tiles := [], alerts := [], environment := ⟨5, 5, [], []⟩,
    tick := 0, models := [], cats := [c1CatOne, c1CatTwo], dogs := [] }

/-- A generator whose first idle roll is 0.9 (cat-1 acts), every later
roll 0 (cat-2 idles), uniform draws at the low end, and shuffles that
leave lists unchanged. -/
def c1Rng : Rng :=
  { randF := fun n => if n = 0 then (⟨9, 10, by decide, by decide⟩ : ℚ) else 0, randIdx := 0,
    unifF := fun _ => 0, unifIdx := 0, shufF := fun _ => [], shufIdx := 0 }

/-- An agentless 5×5 simulation with no reward tiles. -/
def c2Sim : MeshSimulation :=
  { grid := ⟨5, 5⟩, reward_tiles := [], alerts := [], environment := ⟨5, 5, [], []⟩,
    tick := 0, models := [], cats := [], dogs := [] }

/-- A cat standing at (2,2). -/
def c3Node : MeshtasticNode := ⟨"cat-1", 90, 10000, ⟨2, 2⟩⟩

/-- A 5×5 simulation with that cat on a reward tile worth 4 at (2,2). -/
def c3Sim : MeshSimulation :=
  { grid := ⟨5, 5⟩, reward_tiles := [⟨⟨2, 2⟩, 4⟩], alerts := [],
    environment := ⟨5, 5, [((2, 2), 4)], []⟩,
    tick := 0, models := [], cats := [c3Node], dogs := [] }

/-- A generator whose idle rolls are always 0.9 (never idle) and whose
uniform draws sit at the low end. -/
def c3Rng : Rng :=
  { randF := fun _ => (⟨9, 10, by decide, by decide⟩ : ℚ), randIdx := 0,
    unifF := fun _ => 0, unifIdx := 0, shufF := fun _ => [], shufIdx := 0 }

/-- A dog standing at (2,2). -/
def c8Dog : MeshtasticNode := ⟨"dog-1", 90, 10000, ⟨2, 2⟩⟩

/-- A 5×5 simulation holding one dog, used to witness the forced-idle
tick (tick 1 is not a multiple of the dog move interval). -/
def c8Sim : MeshSimulation :=
  { grid := ⟨5, 5⟩, reward_tiles := [], alerts := [], environment := ⟨5, 5, [], []⟩,
    tick := 0, models := [], cats := [], dogs := [c8Dog] }

/-- An all-zero generator (every roll 0, uniform draws at the low end). -/
def c8Rng : Rng :=
  { randF := fun _ => 0, randIdx := 0, unifF := fun _ => 0, unifIdx := 0,
    shufF := fun _ => [], shufIdx := 0 }

/-- Looking a key up right after writing it yields the written value. -/
theorem lookupA_insertA_self {α β : Type} [DecidableEq α]
    (l : List (α × β)) (k : α) (v : β) : lookupA (insertA l k v) k = some v := by
  induction l with
  | nil => simp [insertA, lookupA]
  | cons p rest ih =>
    obtain ⟨k', v'⟩ := p
    by_cases h : k' = k
    · subst h
      simp [insertA, lookupA]
    · simp [insertA, lookupA, h, ih]

/-- Writing one key leaves every other key's lookup unchanged. -/
theorem lookupA_insertA_ne {α β : Type} [DecidableEq α]
    (l : List (α × β)) (k k' : α) (v : β) (h : k ≠ k') :
    lookupA (insertA l k v) k' = lookupA l k' := by
  induction l with
  | nil => simp [insertA, lookupA, h]
  | cons p rest ih =>
    obtain ⟨k₀, v₀⟩ := p
    by_cases h0 : k₀ = k
    · subst h0
      simp [insertA, lookupA, h]
    · simp [insertA, lookupA, h0, ih]

/-- `getQ` after `setQ` at the same pair returns the written value. -/
theorem QLearningAgent.getQ_setQ (ag : QLearningAgent) (s a : Int) (v : ℚ) :
    (ag.setQ s a v).getQ s a = v := by
  simp [QLearningAgent.setQ, QLearningAgent.getQ, lookupA_insertA_self]

/-- C6: `learn(s, a, r, s', A')` replaces `Q(s,a)` with
`(1 - α)·Q(s,a) + α·(r + γ·max_{a' ∈ A'} Q(s',a'))`, the max being 0 when
`A'` is empty; in particular a fresh agent with `learning_rate = 0.5` and
`discount_factor = 0.5`, after `learn(10, DO_WORK, 5, 20, [])`, has
`get_q_value(10, DO_WORK) = 2.5` and `policy(10) = DO_WORK`. -/
theorem qlearning_learn_update :
    (∀ (ag : QLearningAgent) (s a : Int) (r : ℚ) (s' : Int) (A' : List Int),
      (ag.learn s a r s' A').getQ s a =
        (1 - ag.learning_rate) * ag.getQ s a
          + ag.learning_rate * (r + ag.discount_factor * ag.bestNextQ s' A')) ∧
    (∀ (ag : QLearningAgent) (s' : Int), ag.bestNextQ s' [] = 0) ∧
    (exampleAgent.learn 10 4 5 20 []).getQ 10 4 = 5/2 ∧
    (exampleAgent.learn 10 4 5 20 []).policy 10 = some 4 := by
  refine ⟨fun ag s a r s' A' => ?_, fun ag s' => rfl, ?_, ?_⟩
  · simp [QLearningAgent.learn, QLearningAgent.getQ_setQ]
  · simp [QLearningAgent.learn, QLearningAgent.getQ_setQ, QLearningAgent.getQ,
      QLearningAgent.bestNextQ, exampleAgent, lookupA]
    norm_num
  · simp [QLearningAgent.learn, QLearningAgent.setQ, QLearningAgent.policy,
      exampleAgent, lookupA, insertA, argmaxFirst]

/-- The bit mask of any surroundings lies in `[0, 128)`. -/
theorem Surroundings.actionMask_bounds (s : Surroundings) :
    0 ≤ s.actionMask ∧ s.actionMask < 128 := by
  rcases s with ⟨b1, b2, b3, b4, b5, b6, b7⟩
  cases b1 <;> cases b2 <;> cases b3 <;> cases b4 <;> cases b5 <;> cases b6 <;> cases b7 <;>
    decide

/-- A successful `surroundings_for` always reports `DO_WORK`, `STOP` and
`CALL_FOR_HELP` as available. -/
theorem surroundingsFor_always_flags (e : GridWorldEnvironment) (l : GridLocation)
    (s : Surroundings) (h : e.surroundingsFor l = some s) :
    s.can_do_work = true ∧ s.can_stop = true ∧ s.can_call_for_help = true := by
  unfold GridWorldEnvironment.surroundingsFor at h
  split at h
  · exact absurd h (by simp)
  · split at h
    · exact absurd h (by simp)
    · injection h with h
      subst h
      exact ⟨rfl, rfl, rfl⟩

/-- A successful `surroundings_for` pins the location strictly inside the
border. -/
theorem surroundingsFor_bounds (e : GridWorldEnvironment) (l : GridLocation)
    (s : Surroundings) (h : e.surroundingsFor l = some s) :
    0 < l.x ∧ l.x < e.width - 1 ∧ 0 < l.y ∧ l.y < e.height - 1 := by
  unfold GridWorldEnvironment.surroundingsFor at h
  split at h
  · exact absurd h (by simp)
  · split at h
    · exact absurd h (by simp)
    · rename_i hin hborder
      rw [GridWorldEnvironment.withinBounds] at hin
      rw [GridWorldEnvironment.isBorder] at hborder
      simp only [decide_eq_true_eq, not_not] at hin
      simp only [decide_eq_true_eq] at hborder
      omega

/-- `STOP` (code 5) is in the available list whenever `can_stop` holds. -/
theorem Surroundings.stop_mem (s : Surroundings) (h : s.can_stop = true) :
    (5 : Int) ∈ s.availableActions := by
  unfold Surroundings.availableActions
  simp [h]

/-- `DO_WORK` (code 4) is in the available list whenever `can_do_work` holds. -/
theorem Surroundings.do_work_mem (s : Surroundings) (h : s.can_do_work = true) :
    (4 : Int) ∈ s.availableActions := by
  unfold Surroundings.availableActions
  simp [h]

/-- `encode_state` of a location with known surroundings is the claimed
integer. -/
theorem encodeState_eq (e : GridWorldEnvironment) (l : GridLocation) (s : Surroundings)
    (h : e.surroundingsFor l = some s) :
    e.encodeState l = some ((l.y * e.width + l.x) * 128 + s.actionMask) := by
  have hb := surroundingsFor_bounds e l s h
  unfold GridWorldEnvironment.encodeState NodeState.encode
  rw [h]
  dsimp only
  rw [if_neg (by omega)]

/-- Overwriting the cached node table leaves `surroundings_for` unchanged. -/
theorem surroundingsFor_set_states (e : GridWorldEnvironment)
    (ns : List (String × MeshtasticNode)) (l : GridLocation) :
    ({ e with node_states := ns } : GridWorldEnvironment).surroundingsFor l =
      e.surroundingsFor l := rfl

/-- Overwriting the cached node table leaves `encode_state` unchanged. -/
theorem encodeState_set_states (e : GridWorldEnvironment)
    (ns : List (String × MeshtasticNode)) (l : GridLocation) :
    ({ e with node_states := ns } : GridWorldEnvironment).encodeState l =
      e.encodeState l := rfl

/-- Overwriting the cached node table leaves `reward_at` unchanged. -/
theorem rewardAt_set_states (e : GridWorldEnvironment)
    (ns : List (String × MeshtasticNode)) (l : GridLocation) :
    ({ e with node_states := ns } : GridWorldEnvironment).rewardAt l =
      e.rewardAt l := rfl

/-- Every integer in `[0, 7)` decodes to an action. -/
theorem Action.ofInt_exists (a : Int) (h0 : 0 ≤ a) (h7 : a < 7) :
    ∃ act, Action.ofInt? a = some act := by
  unfold Action.ofInt?
  split_ifs <;> first | exact ⟨_, rfl⟩ | omega

/-- Only the integer 5 decodes to `STOP`. -/
theorem Action.ofInt_stop (a : Int) (h : Action.ofInt? a = some .STOP) : a = 5 := by
  unfold Action.ofInt? at h
  split_ifs at h <;> simp_all

/-- C4: stepping with an action code in 0..6 that is absent from the
current location's available actions returns the unchanged encoded state,
the unchanged (cache-resolved) node, reward −1 and `done = false`, and
raises no error. -/
theorem step_illegal_action (e : GridWorldEnvironment) (n : MeshtasticNode) (a : Int)
    (s : Surroundings)
    (hs : e.surroundingsFor (e.resolveNode n).location = some s)
    (h0 : 0 ≤ a) (h7 : a < 7)
    (hna : a ∉ s.availableActions) :
    e.step n a =
      .ok ({ e with node_states := insertA e.node_states n.identifier (e.resolveNode n) },
        ((e.resolveNode n).location.y * e.width + (e.resolveNode n).location.x) * 128 +
          s.actionMask,
        e.resolveNode n, -1, false) ∧
    e.encodeState (e.resolveNode n).location =
      some (((e.resolveNode n).location.y * e.width + (e.resolveNode n).location.x) * 128 +
        s.actionMask) := by
  obtain ⟨act, hact⟩ := Action.ofInt_exists a h0 h7
  have henc := encodeState_eq _ _ _ hs
  refine ⟨?_, henc⟩
  unfold GridWorldEnvironment.step
  rw [hact]
  dsimp only
  rw [surroundingsFor_set_states, hs]
  dsimp only
  rw [if_pos hna, encodeState_set_states, henc]

/-- C7: at any resolvable interior location, `step(node, STOP)` returns
reward 0 and `done = true` with the node unchanged at the same encoded
state; and `STOP` is the only action for which `step` ever reports
`done = true`. -/
theorem step_stop_terminal :
    (∀ (e : GridWorldEnvironment) (n : MeshtasticNode) (s : Surroundings),
      e.surroundingsFor (e.resolveNode n).location = some s →
      e.step n 5 =
        .ok ({ e with node_states := insertA e.node_states n.identifier (e.resolveNode n) },
          ((e.resolveNode n).location.y * e.width + (e.resolveNode n).location.x) * 128 +
            s.actionMask,
          e.resolveNode n, 0, true)) ∧
    (∀ (e : GridWorldEnvironment) (n : MeshtasticNode) (a : Int)
      (r : GridWorldEnvironment × Int × MeshtasticNode × Int × Bool),
      e.step n a = .ok r → r.2.2.2.2 = true → a = 5) := by
  constructor
  · intro e n s hs
    have henc := encodeState_eq _ _ _ hs
    have hstop := (surroundingsFor_always_flags _ _ _ hs).2.1
    have h5 : Action.ofInt? 5 = some Action.STOP := by decide
    unfold GridWorldEnvironment.step
    rw [h5]
    dsimp only
    rw [surroundingsFor_set_states, hs]
    dsimp only
    rw [if_neg (not_not_intro (Surroundings.stop_mem s hstop))]
    dsimp only [actionToVector?]
    rw [encodeState_set_states, henc]
    dsimp only
    rw [if_neg (by decide), if_pos rfl]
  · intro e n a r h hdone
    unfold GridWorldEnvironment.step at h
    cases hact : Action.ofInt? a with
    | none => rw [hact] at h; simp at h
    | some act =>
      rw [hact] at h
      dsimp only at h
      split at h
      · simp at h
      · split at h
        · split at h
          · simp at h
          · injection h with h
            subst h
            simp at hdone
        · split at h
          · split at h
            · split at h
              · simp at h
              · injection h with h
                subst h
                simp at hdone
            · split at h
              · simp at h
              · injection h with h
                subst h
                simp at hdone
          · split at h
            · simp at h
            · split at h
              · injection h with h
                subst h
                simp at hdone
              · split at h
                · rename_i hstopEq
                  exact Action.ofInt_stop a (by rw [hact, hstopEq])
                · split at h
                  · injection h with h
                    subst h
                    simp at hdone
                  · injection h with h
                    subst h
                    simp at hdone

/-- `resolveNode` with a cached record yields the cached record with only
battery level and compute efficiency adopted from the caller's copy. -/
theorem resolveNode_cached (e : GridWorldEnvironment) (n c : MeshtasticNode)
    (hc : lookupA e.node_states n.identifier = some c) :
    e.resolveNode n =
      { c with battery_level := n.battery_level
               compute_efficiency_flops_per_milliamp :=
                 n.compute_efficiency_flops_per_milliamp } := by
  unfold GridWorldEnvironment.resolveNode
  rw [hc]
  dsimp only
  split
  · rfl
  · rename_i hne
    push_neg at hne
    obtain ⟨hb, he⟩ := hne
    rw [hb, he]

/-- With a cached record, the caller's location plays no role in node
resolution. -/
theorem resolveNode_withLocation (e : GridWorldEnvironment) (n : MeshtasticNode)
    (L : GridLocation) (c : MeshtasticNode)
    (hc : lookupA e.node_states n.identifier = some c) :
    e.resolveNode (n.withLocation L) = e.resolveNode n := by
  unfold GridWorldEnvironment.resolveNode MeshtasticNode.withLocation
  dsimp only
  rw [hc]

/-- `step` reads the caller's node only through `resolveNode` and the
identifier. -/
theorem step_congr (e : GridWorldEnvironment) (n1 n2 : MeshtasticNode) (a : Int)
    (h1 : e.resolveNode n1 = e.resolveNode n2) (h2 : n1.identifier = n2.identifier) :
    e.step n1 a = e.step n2 a := by
  unfold GridWorldEnvironment.step
  simp only [h1, h2]

/-- C9: with a cached record for the identifier, `step` ignores the
caller-supplied copy's location — the outcome is the same for any caller
location — and resolves to the cached record, adopting only
`battery_level` and `compute_efficiency` from the caller's copy. -/
theorem step_ignores_caller_location (e : GridWorldEnvironment) (n c : MeshtasticNode)
    (a : Int) (L : GridLocation)
    (hc : lookupA e.node_states n.identifier = some c) :
    e.resolveNode n =
      { c with battery_level := n.battery_level
               compute_efficiency_flops_per_milliamp :=
                 n.compute_efficiency_flops_per_milliamp } ∧
    e.step (n.withLocation L) a = e.step n a := by
  refine ⟨resolveNode_cached e n c hc, ?_⟩
  exact step_congr e (n.withLocation L) n a (resolveNode_withLocation e n L c hc) rfl

/-- A successful `step` leaves the environment's reward map untouched. -/
theorem step_rewards_aux (e : GridWorldEnvironment) (n : MeshtasticNode) (a : Int)
    (r : GridWorldEnvironment × Int × MeshtasticNode × Int × Bool)
    (h : e.step n a = .ok r) : r.1.rewards = e.rewards := by
  unfold GridWorldEnvironment.step at h
  cases hact : Action.ofInt? a with
  | none => rw [hact] at h; simp at h
  | some act =>
    rw [hact] at h
    dsimp only at h
    split at h
    · simp at h
    · split at h
      · split at h
        · simp at h
        · injection h with h
          subst h
          rfl
      · split at h
        · split at h
          · split at h
            · simp at h
            · injection h with h
              subst h
              rfl
          · split at h
            · simp at h
            · injection h with h
              subst h
              rfl
        · split at h
          · simp at h
          · split at h
            · injection h with h
              subst h
              rfl
            · split at h
              · injection h with h
                subst h
                rfl
              · split at h
                · injection h with h
                  subst h
                  rfl
                · injection h with h
                  subst h
                  rfl

/-- C10: `step` never modifies the reward map — `reward_at` returns the
same value at every location before and after any successful call, for
every node and action. -/
theorem step_never_modifies_rewards (e : GridWorldEnvironment) (n : MeshtasticNode)
    (a : Int) (r : GridWorldEnvironment × Int × MeshtasticNode × Int × Bool)
    (h : e.step n a = .ok r) :
    ∀ L : GridLocation, r.1.rewardAt L = e.rewardAt L := by
  intro L
  unfold GridWorldEnvironment.rewardAt
  rw [step_rewards_aux e n a r h]

/-- C5: for a fixed grid, the state code of an interior location is
`(y·width + x)·2⁷ + action mask`, and distinct interior locations always
receive distinct codes. -/
theorem encode_state_injective (e : GridWorldEnvironment)
    (l1 l2 : GridLocation) (s1 s2 : Surroundings) (c1 c2 : Int)
    (h1 : e.surroundingsFor l1 = some s1) (h2 : e.surroundingsFor l2 = some s2)
    (he1 : e.encodeState l1 = some c1) (he2 : e.encodeState l2 = some c2) :
    c1 = (l1.y * e.width + l1.x) * 2 ^ 7 + s1.actionMask ∧
    (l1 ≠ l2 → c1 ≠ c2) := by
  have hb1 := surroundingsFor_bounds _ _ _ h1
  have hb2 := surroundingsFor_bounds _ _ _ h2
  have hm1 := Surroundings.actionMask_bounds s1
  have hm2 := Surroundings.actionMask_bounds s2
  have hq1 := encodeState_eq _ _ _ h1
  have hq2 := encodeState_eq _ _ _ h2
  rw [he1] at hq1
  rw [he2] at hq2
  injection hq1 with hq1
  injection hq2 with hq2
  constructor
  · rw [hq1]
    norm_num
  · intro hne hceq
    rw [hq1, hq2] at hceq
    have hp : l1.y * e.width + l1.x = l2.y * e.width + l2.x := by omega
    have hp' : l1.x + e.width * l1.y = l2.x + e.width * l2.y := by linear_combination hp
    have hx : l1.x = l2.x := by
      have m1 : (l1.x + e.width * l1.y) % e.width = l1.x := by
        rw [Int.add_mul_emod_self_left]
        exact Int.emod_eq_of_lt (by omega) (by omega)
      have m2 : (l2.x + e.width * l2.y) % e.width = l2.x := by
        rw [Int.add_mul_emod_self_left]
        exact Int.emod_eq_of_lt (by omega) (by omega)
      rw [← m1, ← m2, hp']
    have hy : l1.y = l2.y := by
      have hw : e.width ≠ 0 := by omega
      have := hp
      rw [hx] at this
      have hyw : l1.y * e.width = l2.y * e.width := by omega
      exact mul_right_cancel₀ hw hyw
    exact hne (by cases l1; cases l2; simp_all)

theorem step_illegal_action_witness :
    wEnv.step wNode 0 =
      .ok ({ wEnv with node_states := insertA wEnv.node_states wNode.identifier (wEnv.resolveNode wNode) },
        ((wEnv.resolveNode wNode).location.y * wEnv.width + (wEnv.resolveNode wNode).location.x) * 128 +
          wS.actionMask,
        wEnv.resolveNode wNode, -1, false) ∧
    wEnv.encodeState (wEnv.resolveNode wNode).location =
      some (((wEnv.resolveNode wNode).location.y * wEnv.width + (wEnv.resolveNode wNode).location.x) * 128 +
        wS.actionMask) :=
  step_illegal_action wEnv wNode 0 wS (by decide) (by decide) (by decide) (by decide)

theorem step_stop_terminal_witness :
    wEnv.step wNode 5 =
      .ok ({ wEnv with node_states := insertA wEnv.node_states wNode.identifier (wEnv.resolveNode wNode) },
        ((wEnv.resolveNode wNode).location.y * wEnv.width + (wEnv.resolveNode wNode).location.x) * 128 +
          wS.actionMask,
        wEnv.resolveNode wNode, 0, true) :=
  step_stop_terminal.1 wEnv wNode wS (by decide)

theorem encode_state_injective_witness :
    (890 : Int) = ((1 : Int) * wEnv.width + 1) * 2 ^ 7 + wS.actionMask ∧
    ((⟨1, 1⟩ : GridLocation) ≠ ⟨2, 1⟩ → (890 : Int) ≠ 1022) :=
  encode_state_injective wEnv ⟨1, 1⟩ ⟨2, 1⟩ wS wS2 890 1022
    (by decide) (by decide) (by decide) (by decide)

theorem step_ignores_caller_location_witness :
    wEnvCached.resolveNode wNode =
      { wCached with battery_level := wNode.battery_level
                     compute_efficiency_flops_per_milliamp :=
                       wNode.compute_efficiency_flops_per_milliamp } ∧
    wEnvCached.step (wNode.withLocation ⟨3, 3⟩) 4 = wEnvCached.step wNode 4 :=
  step_ignores_caller_location wEnvCached wNode wCached 4 ⟨3, 3⟩ (by decide)

theorem step_never_modifies_rewards_witness :
    ({ wEnvR with node_states := [("cat-1", wNodeC)] } : GridWorldEnvironment).rewardAt ⟨2, 2⟩ =
      wEnvR.rewardAt ⟨2, 2⟩ :=
  step_never_modifies_rewards wEnvR wNodeC 4
    ({ wEnvR with node_states := [("cat-1", wNodeC)] }, 1663, wNodeC, 7, false)
    (by rfl) ⟨2, 2⟩

/-- Setting a reward then reading it back at the same location yields the
written value. -/
theorem rewardAt_setReward_self (e : GridWorldEnvironment) (l : GridLocation) (v : Int) :
    (e.setReward l v).rewardAt l = v := by
  simp [GridWorldEnvironment.setReward, GridWorldEnvironment.rewardAt, lookupA_insertA_self]

/-- The replacement loop reports a replacement exactly when some tile
already sat at the location. -/
theorem replaceTiles_snd (ts : List RewardTile) (l : GridLocation) (tile : RewardTile) :
    (replaceTiles ts l tile).2 =
      !(ts.filter (fun t => decide (t.location = l))).isEmpty := by
  induction ts with
  | nil => rfl
  | cons t ts ih =>
    by_cases h : t.location = l <;>
      simp [replaceTiles, List.filter_cons, h, ih]

/-- After the replacement loop, the tiles at the location are exactly as
many copies of the new tile as there were old tiles there. -/
theorem replaceTiles_filter (ts : List RewardTile) (l : GridLocation) (tile : RewardTile)
    (htile : tile.location = l) :
    (replaceTiles ts l tile).1.filter (fun t => decide (t.location = l)) =
      List.replicate (ts.filter (fun t => decide (t.location = l))).length tile := by
  induction ts with
  | nil => rfl
  | cons t ts ih =>
    by_cases h : t.location = l <;>
      simp [replaceTiles, List.filter_cons, h, ih, htile, List.replicate_succ]

/-- `add_reward_tile` on an interior location succeeds and produces the
replaced tile list plus the mirrored environment reward. -/
theorem addRewardTile_ok (sim : MeshSimulation) (l : GridLocation) (v : Int)
    (hint : sim.isInterior l = true) :
    sim.addRewardTile l v =
      .ok { sim with
        reward_tiles :=
          (if (replaceTiles sim.reward_tiles l ⟨l, v⟩).2 then
            (replaceTiles sim.reward_tiles l ⟨l, v⟩).1
          else (replaceTiles sim.reward_tiles l ⟨l, v⟩).1 ++ [⟨l, v⟩])
        environment := sim.environment.setReward l v } := by
  unfold MeshSimulation.addRewardTile
  rw [if_neg (by simp [hint])]

/-- `add_reward_tile` on an interior location holding at most one tile
leaves exactly one tile there, and mirrors the value into the
environment. -/
theorem addRewardTile_filter (sim : MeshSimulation) (l : GridLocation) (v : Int)
    (hint : sim.isInterior l = true)
    (hone : (sim.reward_tiles.filter (fun t => decide (t.location = l))).length ≤ 1) :
    ∃ sim1, sim.addRewardTile l v = .ok sim1 ∧
      sim1.reward_tiles.filter (fun t => decide (t.location = l)) = [⟨l, v⟩] ∧
      sim1.environment = sim.environment.setReward l v ∧
      sim1.grid = sim.grid := by
  refine ⟨_, addRewardTile_ok sim l v hint, ?_, rfl, rfl⟩
  have hsnd := replaceTiles_snd sim.reward_tiles l ⟨l, v⟩
  have hfil := replaceTiles_filter sim.reward_tiles l (⟨l, v⟩ : RewardTile) rfl
  dsimp only
  cases hk : sim.reward_tiles.filter (fun t => decide (t.location = l)) with
  | nil =>
    rw [hk] at hsnd hfil
    simp only [List.isEmpty_nil, Bool.not_true, List.length_nil, List.replicate] at hsnd hfil
    rw [if_neg (by simp [hsnd])]
    simp [List.filter_append, hfil]
  | cons a rest =>
    have hrest : rest = [] := by
      rw [hk] at hone
      simpa using hone
    subst hrest
    rw [hk] at hsnd hfil
    simp only [List.isEmpty_cons, Bool.not_false, List.length_cons, List.length_nil,
      List.replicate] at hsnd hfil
    rw [if_pos (by simp [hsnd])]
    exact hfil

/-- C2: adding a reward tile at a strictly interior location succeeds and
mirrors the value into `reward_at`; a second add at the same location
replaces the tile — the new value is read back and exactly one tile
remains there. -/
theorem add_reward_tile_replaces (sim : MeshSimulation) (l : GridLocation) (v v2 : Int)
    (hint : sim.isInterior l = true)
    (hone : (sim.reward_tiles.filter (fun t => decide (t.location = l))).length ≤ 1) :
    ∃ sim1 sim2,
      sim.addRewardTile l v = .ok sim1 ∧
      sim1.environment.rewardAt l = v ∧
      sim1.addRewardTile l v2 = .ok sim2 ∧
      sim2.environment.rewardAt l = v2 ∧
      sim2.reward_tiles.filter (fun t => decide (t.location = l)) = [⟨l, v2⟩] := by
  obtain ⟨sim1, h1, hf1, he1, hg1⟩ := addRewardTile_filter sim l v hint hone
  have hint1 : sim1.isInterior l = true := by
    unfold MeshSimulation.isInterior at hint ⊢
    rw [hg1]
    exact hint
  have hone1 : (sim1.reward_tiles.filter (fun t => decide (t.location = l))).length ≤ 1 := by
    rw [hf1]
    simp
  obtain ⟨sim2, h2, hf2, he2, _⟩ := addRewardTile_filter sim1 l v2 hint1 hone1
  refine ⟨sim1, sim2, h1, ?_, h2, ?_, hf2⟩
  · rw [he1]
    exact rewardAt_setReward_self sim.environment l v
  · rw [he2]
    exact rewardAt_setReward_self sim1.environment l v2

theorem add_reward_tile_replaces_witness :
    ∃ sim1 sim2,
      c2Sim.addRewardTile ⟨2, 2⟩ 4 = .ok sim1 ∧
      sim1.environment.rewardAt ⟨2, 2⟩ = 4 ∧
      sim1.addRewardTile ⟨2, 2⟩ (-2) = .ok sim2 ∧
      sim2.environment.rewardAt ⟨2, 2⟩ = -2 ∧
      sim2.reward_tiles.filter (fun t => decide (t.location = ⟨2, 2⟩)) = [⟨⟨2, 2⟩, -2⟩] :=
  add_reward_tile_replaces c2Sim ⟨2, 2⟩ 4 (-2) (by decide) (by decide)

/-- `step` with `DO_WORK` at a resolvable location: the node stays put
and the reward at the current cell is returned. -/
theorem step_do_work (e : GridWorldEnvironment) (n : MeshtasticNode) (s : Surroundings)
    (hs : e.surroundingsFor (e.resolveNode n).location = some s) :
    e.step n 4 =
      .ok ({ e with node_states := insertA e.node_states n.identifier (e.resolveNode n) },
        ((e.resolveNode n).location.y * e.width + (e.resolveNode n).location.x) * 128 +
          s.actionMask,
        e.resolveNode n, e.rewardAt (e.resolveNode n).location, false) := by
  have henc := encodeState_eq _ _ _ hs
  have hdwf := (surroundingsFor_always_flags _ _ _ hs).1
  have h4 : Action.ofInt? 4 = some Action.DO_WORK := by decide
  unfold GridWorldEnvironment.step
  rw [h4]
  dsimp only
  rw [surroundingsFor_set_states, hs]
  dsimp only
  rw [if_neg (not_not_intro (Surroundings.do_work_mem s hdwf))]
  dsimp only [actionToVector?]
  rw [encodeState_set_states, henc]
  dsimp only
  rw [if_pos rfl]
  rfl

/-- C3: a cat taking a non-idle turn on a cell with strictly positive
reward where `DO_WORK` is available performs `DO_WORK` in place; the
environment's reward there becomes 0 and no reward tile remains at that
location. -/
theorem cat_consumes_reward_tile (sim : MeshSimulation) (rng : Rng) (node : MeshtasticNode)
    (occupied : List (Int × Int)) (idle_probability : ℚ) (s : Surroundings)
    (hres : (sim.environment.resolveNode node).location = node.location)
    (hidle : ratLt (rng.randF rng.randIdx) (ratMin (ratMax idle_probability 0) 1) = false)
    (hsur : sim.environment.surroundingsFor node.location = some s)
    (hdw : (4 : Int) ∈ s.availableActions)
    (hrew : 0 < sim.environment.rewardAt node.location) :
    ∃ n2 sim1 rng2,
      sim.moveNode rng node occupied "cat" idle_probability = .ok (n2, sim1, rng2) ∧
      n2.location = node.location ∧
      sim1.environment.rewardAt node.location = 0 ∧
      ∀ t ∈ sim1.reward_tiles, t.location ≠ node.location := by
  have hstep := step_do_work sim.environment node s (by rw [hres]; exact hsur)
  have hemp : s.availableActions.isEmpty = false := by
    rcases h : s.availableActions with _ | ⟨a, rest⟩
    · rw [h] at hdw
      cases hdw
    · rfl
  simp only [MeshSimulation.moveNode, Rng.random, hidle, Bool.false_eq_true, if_false,
    ite_false, hsur, hemp, hstep, hrew, hdw, eq_self_iff_true, true_and, and_true, if_true,
    ite_true]
  refine ⟨_, _, _, rfl, ?_, ?_, ?_⟩
  · dsimp only [drainBattery]
    exact hres
  · dsimp only [MeshSimulation.consumeRewardTile]
    rw [hres]
    rw [if_neg (by omega)]
    exact rewardAt_setReward_self _ _ _
  · dsimp only [MeshSimulation.consumeRewardTile]
    rw [hres]
    rw [if_neg (by omega)]
    intro t ht
    simp only [List.mem_filter, decide_eq_true_eq] at ht
    exact ht.2

theorem cat_consumes_reward_tile_witness :
    ∃ n2 sim1 rng2,
      c3Sim.moveNode c3Rng c3Node [] "cat" catIdleChance = .ok (n2, sim1, rng2) ∧
      n2.location = c3Node.location ∧
      sim1.environment.rewardAt c3Node.location = 0 ∧
      ∀ t ∈ sim1.reward_tiles, t.location ≠ c3Node.location :=
  cat_consumes_reward_tile c3Sim c3Rng c3Node [] catIdleChance
    ⟨true, true, true, true, true, true, true⟩
    (by decide) (by decide) (by decide) (by decide) (by decide)

/-- The computable float comparison agrees with the order on ℚ. -/
theorem ratLt_iff (a b : ℚ) : ratLt a b = true ↔ a < b := by
  unfold ratLt
  rw [decide_eq_true_eq]
  exact Rat.lt_def.symm

/-- The computable float maximum is the maximum. -/
theorem ratMax_eq (a b : ℚ) : ratMax a b = max a b := by
  unfold ratMax
  by_cases h : ratLt a b = true
  · rw [if_pos h, max_eq_right ((ratLt_iff a b).mp h).le]
  · have : ¬ a < b := fun hlt => h ((ratLt_iff a b).mpr hlt)
    rw [if_neg h, max_eq_left (not_lt.mp this)]

/-- The computable float minimum is the minimum. -/
theorem ratMin_eq (a b : ℚ) : ratMin a b = min a b := by
  unfold ratMin
  by_cases h : ratLt b a = true
  · rw [if_pos h, min_eq_right ((ratLt_iff b a).mp h).le]
  · have : ¬ b < a := fun hlt => h ((ratLt_iff b a).mpr hlt)
    rw [if_neg h, min_eq_left (not_lt.mp this)]

/-- Rounding to two decimals moves a value up by at most 1/200. -/
theorem round2_le_add (x : ℚ) : round2 x ≤ x + 1 / 200 := by
  have h1 : (⌊x * 100⌋ : ℚ) ≤ x * 100 := Int.floor_le _
  have h2 : x * 100 < ⌊x * 100⌋ + 1 := Int.lt_floor_add_one _
  unfold round2 roundHalfEven
  dsimp only
  split_ifs with ha hb hc <;> push_cast <;> linarith

/-- Rounding zero gives zero. -/
theorem round2_zero : round2 0 = 0 := by
  unfold round2 roundHalfEven
  norm_num

/-- One battery drain with a draw of at least 1/20 never increases a
nonnegative battery level. -/
theorem drained_le (b d : ℚ) (hb : 0 ≤ b) (hd : 1 / 20 ≤ d) :
    round2 (ratMax (b - d) 0) ≤ b := by
  rw [ratMax_eq]
  rcases le_or_lt (b - d) 0 with h | h
  · rw [max_eq_right h, round2_zero]
    exact hb
  · rw [max_eq_left h.le]
    have := round2_le_add (b - d)
    linarith

/-- With idle probability 1 and a roll strictly below 1, `_move_node`
takes the idle branch: clear the alert for dogs, drain the battery, and
leave everything else untouched. -/
theorem moveNode_idle_one (sim : MeshSimulation) (rng : Rng) (node : MeshtasticNode)
    (occ : List (Int × Int)) (t : String)
    (hr : rng.randF rng.randIdx < 1) :
    sim.moveNode rng node occ t 1 =
      .ok ((drainBattery node { rng with randIdx := rng.randIdx + 1 }).1,
        (if t = "dog" then sim.clearAlert node.identifier else sim),
        (drainBattery node { rng with randIdx := rng.randIdx + 1 }).2) := by
  have hp : ratMin (ratMax (1 : ℚ) 0) 1 = 1 := by decide
  have hlt : ratLt (rng.randF rng.randIdx) 1 = true := (ratLt_iff _ _).mpr hr
  unfold MeshSimulation.moveNode
  dsimp only [Rng.random]
  rw [hp, hlt]
  rfl

@[simp]
theorem clearAlert_cats (sim : MeshSimulation) (i : String) :
    (sim.clearAlert i).cats = sim.cats := rfl

@[simp]
theorem clearAlert_dogs (sim : MeshSimulation) (i : String) :
    (sim.clearAlert i).dogs = sim.dogs := rfl

@[simp]
theorem clearAlert_tick (sim : MeshSimulation) (i : String) :
    (sim.clearAlert i).tick = sim.tick := rfl

@[simp]
theorem setAlert_cats (sim : MeshSimulation) (i m : String) :
    (sim.setAlert i m).cats = sim.cats := rfl

@[simp]
theorem setAlert_dogs (sim : MeshSimulation) (i m : String) :
    (sim.setAlert i m).dogs = sim.dogs := rfl

@[simp]
theorem setAlert_tick (sim : MeshSimulation) (i m : String) :
    (sim.setAlert i m).tick = sim.tick := rfl

@[simp]
theorem consumeRewardTile_cats (sim : MeshSimulation) (l : GridLocation) (v : Int) :
    (sim.consumeRewardTile l v).cats = sim.cats := by
  unfold MeshSimulation.consumeRewardTile
  split <;> rfl

@[simp]
theorem consumeRewardTile_dogs (sim : MeshSimulation) (l : GridLocation) (v : Int) :
    (sim.consumeRewardTile l v).dogs = sim.dogs := by
  unfold MeshSimulation.consumeRewardTile
  split <;> rfl

@[simp]
theorem consumeRewardTile_tick (sim : MeshSimulation) (l : GridLocation) (v : Int) :
    (sim.consumeRewardTile l v).tick = sim.tick := by
  unfold MeshSimulation.consumeRewardTile
  split <;> rfl

@[simp]
theorem drainBattery_snd (node : MeshtasticNode) (rng : Rng) :
    (drainBattery node rng).2 = { rng with unifIdx := rng.unifIdx + 1 } := rfl

@[simp]
theorem shuffle_snd (rng : Rng) (xs : List Int) :
    (rng.shuffle xs).2 = { rng with shufIdx := rng.shufIdx + 1 } := rfl

/-- `_enter_stop_state` only touches the environment, the rng indices and
the returned node. -/
theorem enterStopState_frame (sim : MeshSimulation) (rng : Rng) (node : MeshtasticNode)
    (n' : MeshtasticNode) (sim' : MeshSimulation) (rng' : Rng)
    (h : sim.enterStopState rng node = .ok (n', sim', rng')) :
    simFrame sim sim' ∧ rngFrame rng rng' := by
  unfold MeshSimulation.enterStopState at h
  split at h
  · simp at h
  · simp only [drainBattery_snd, Prod.mk.injEq, Except.ok.injEq] at h
    obtain ⟨-, h2, h3⟩ := h
    subst h2
    subst h3
    exact ⟨⟨rfl, rfl, rfl⟩, rfl, rfl⟩

/-- `_handle_no_viable_action` only adds an alert on top of the stop
transition. -/
theorem handleNoViableAction_frame (sim : MeshSimulation) (rng : Rng)
    (node : MeshtasticNode) (reason : String)
    (n' : MeshtasticNode) (sim' : MeshSimulation) (rng' : Rng)
    (h : sim.handleNoViableAction rng node reason = .ok (n', sim', rng')) :
    simFrame sim sim' ∧ rngFrame rng rng' := by
  unfold MeshSimulation.handleNoViableAction at h
  have := enterStopState_frame _ _ _ _ _ _ h
  obtain ⟨⟨h1, h2, h3⟩, h4⟩ := this
  exact ⟨⟨by simpa using h1, by simpa using h2, by simpa using h3⟩, h4⟩

/-- `_handle_no_available_actions` likewise. -/
theorem handleNoAvailableActions_frame (sim : MeshSimulation) (rng : Rng)
    (node : MeshtasticNode) (t : String)
    (n' : MeshtasticNode) (sim' : MeshSimulation) (rng' : Rng)
    (h : sim.handleNoAvailableActions rng node t = .ok (n', sim', rng')) :
    simFrame sim sim' ∧ rngFrame rng rng' := by
  unfold MeshSimulation.handleNoAvailableActions at h
  split at h
  · exact handleNoViableAction_frame _ _ _ _ _ _ _ h
  · simp only [drainBattery_snd, Prod.mk.injEq, Except.ok.injEq] at h
    obtain ⟨-, h2, h3⟩ := h
    subst h2
    subst h3
    exact ⟨⟨rfl, rfl, rfl⟩, rfl, rfl⟩

/-- `fallback_cat_work` leaves the generator streams untouched. -/
theorem fallbackCatWork_rng (env : GridWorldEnvironment) (rng : Rng)
    (node : MeshtasticNode) (acts : List Int)
    (n' : MeshtasticNode) (env' : GridWorldEnvironment) (rng' : Rng)
    (h : fallbackCatWork env rng node acts = .ok (n', env', rng')) :
    rngFrame rng rng' := by
  unfold fallbackCatWork at h
  split at h
  · split at h
    · simp at h
    · simp only [drainBattery_snd, Prod.mk.injEq, Except.ok.injEq] at h
      obtain ⟨-, -, h3⟩ := h
      subst h3
      exact ⟨rfl, rfl⟩
  · simp only [drainBattery_snd, Prod.mk.injEq, Except.ok.injEq] at h
    obtain ⟨-, -, h3⟩ := h
    subst h3
    exact ⟨rfl, rfl⟩

/-- `_fallback_cat_action` leaves the generator streams untouched. -/
theorem fallbackCatAction_rng (env : GridWorldEnvironment) (rng : Rng)
    (node : MeshtasticNode) (acts : List Int) (occ : List (Int × Int))
    (n' : MeshtasticNode) (env' : GridWorldEnvironment) (rng' : Rng)
    (h : fallbackCatAction env rng node acts occ = .ok (n', env', rng')) :
    rngFrame rng rng' := by
  unfold fallbackCatAction at h
  dsimp only at h
  split at h
  · exact fallbackCatWork_rng _ _ _ _ _ _ _ h
  · split at h
    · simp at h
    · simp only [shuffle_snd, drainBattery_snd, Prod.mk.injEq, Except.ok.injEq] at h
      obtain ⟨-, -, h3⟩ := h
      subst h3
      exact ⟨rfl, rfl⟩
    · have := fallbackCatWork_rng _ _ _ _ _ _ _ h
      obtain ⟨h1, h2⟩ := this
      exact ⟨h1, h2⟩

/-- `_move_node` never touches the agent lists, the tick, or the
generator streams. -/
theorem moveNode_frame (sim : MeshSimulation) (rng : Rng) (node : MeshtasticNode)
    (occ : List (Int × Int)) (t : String) (p : ℚ)
    (n' : MeshtasticNode) (sim' : MeshSimulation) (rng' : Rng)
    (h : sim.moveNode rng node occ t p = .ok (n', sim', rng')) :
    simFrame sim sim' ∧ rngFrame rng rng' := by
  unfold MeshSimulation.moveNode at h
  dsimp only [Rng.random] at h
  split at h
  · -- idle branch
    simp only [drainBattery_snd, Prod.mk.injEq, Except.ok.injEq] at h
    obtain ⟨-, h2, h3⟩ := h
    subst h3
    refine ⟨?_, rfl, rfl⟩
    subst h2
    split <;> exact ⟨rfl, rfl, rfl⟩
  · split at h
    · simp at h
    · split at h
      · -- no available actions
        have := handleNoAvailableActions_frame _ _ _ _ _ _ _ h
        obtain ⟨hs, ⟨hr1, hr2⟩⟩ := this
        exact ⟨hs, hr1, hr2⟩
      · split at h
        · -- greedy harvest
          split at h
          · simp at h
          · simp only [drainBattery_snd, Prod.mk.injEq, Except.ok.injEq] at h
            obtain ⟨-, h2, h3⟩ := h
            subst h2
            subst h3
            exact ⟨⟨by simp, by simp, by simp⟩, rfl, rfl⟩
        · -- ranked commit
          split at h
          · simp at h
          · simp only [drainBattery_snd, Prod.mk.injEq, Except.ok.injEq] at h
            obtain ⟨-, h2, h3⟩ := h
            subst h2
            subst h3
            refine ⟨?_, rfl, rfl⟩
            split <;> exact ⟨rfl, rfl, rfl⟩
          · -- no ranked action
            split at h
            · split at h
              · simp at h
              · rename_i heqfb
                simp only [Except.ok.injEq, Prod.mk.injEq] at h
                obtain ⟨-, h2, h3⟩ := h
                subst h2
                subst h3
                obtain ⟨hr1, hr2⟩ := fallbackCatAction_rng _ _ _ _ _ _ _ _ heqfb
                exact ⟨⟨rfl, rfl, rfl⟩, hr1, hr2⟩
            · have := handleNoViableAction_frame _ _ _ _ _ _ _ h
              obtain ⟨hs, ⟨hr1, hr2⟩⟩ := this
              exact ⟨hs, hr1, hr2⟩

/-- Unfolding equation of `_advance_group` on the empty group. -/
theorem advanceGroup_nil (sim : MeshSimulation) (rng : Rng) (occ : List (Int × Int))
    (t : String) (p : ℚ) : sim.advanceGroup rng [] occ t p = .ok ([], sim, rng, occ) := rfl

/-- Unfolding equation of `_advance_group` on a non-empty group. -/
theorem advanceGroup_cons (sim : MeshSimulation) (rng : Rng) (node : MeshtasticNode)
    (rest : List MeshtasticNode) (occ : List (Int × Int)) (t : String) (p : ℚ) :
    sim.advanceGroup rng (node :: rest) occ t p =
      match sim.moveNode rng node (setDiscard occ (node.location.x, node.location.y)) t p with
      | .error msg => .error msg
      | .ok (next_node, sim1, rng1) =>
        match sim1.advanceGroup rng1 rest
            (setInsert (setDiscard occ (node.location.x, node.location.y))
              (next_node.location.x, next_node.location.y)) t p with
        | .error msg => .error msg
        | .ok (updated, sim2, rng2, occupied3) =>
          .ok (next_node :: updated, sim2, rng2, occupied3) := rfl

/-- `_advance_group` never touches the agent lists, the tick, or the
generator streams. -/
theorem advanceGroup_frame (nodes : List MeshtasticNode) :
    ∀ (sim : MeshSimulation) (rng : Rng) (occ : List (Int × Int)) (t : String) (p : ℚ)
    (ns : List MeshtasticNode) (sim' : MeshSimulation) (rng' : Rng)
    (occ' : List (Int × Int)),
    sim.advanceGroup rng nodes occ t p = .ok (ns, sim', rng', occ') →
    simFrame sim sim' ∧ rngFrame rng rng' := by
  induction nodes with
  | nil =>
    intro sim rng occ t p ns sim' rng' occ' h
    rw [advanceGroup_nil] at h
    simp only [Except.ok.injEq, Prod.mk.injEq] at h
    obtain ⟨-, h2, h3, -⟩ := h
    subst h2
    subst h3
    exact ⟨⟨rfl, rfl, rfl⟩, rfl, rfl⟩
  | cons node rest ih =>
    intro sim rng occ t p ns sim' rng' occ' h
    rw [advanceGroup_cons] at h
    split at h
    · simp at h
    · rename_i hmv
      split at h
      · simp at h
      · rename_i hrec
        simp only [Except.ok.injEq, Prod.mk.injEq] at h
        obtain ⟨-, h2, h3, -⟩ := h
        subst h2
        subst h3
        obtain ⟨⟨a1, a2, a3⟩, b1, b2⟩ := moveNode_frame _ _ _ _ _ _ _ _ _ hmv
        obtain ⟨⟨c1, c2, c3⟩, d1, d2⟩ := ih _ _ _ _ _ _ _ _ _ hrec
        exact ⟨⟨c1.trans a1, c2.trans a2, c3.trans a3⟩, d1.trans b1, d2.trans b2⟩

/-- With idle probability 1 and in-range generator streams,
`_advance_group` succeeds and every agent keeps its identifier, location
and efficiency, the battery never increasing. -/
theorem advanceGroup_idle_one (nodes : List MeshtasticNode) :
    ∀ (sim : MeshSimulation) (rng : Rng) (occ : List (Int × Int)) (t : String),
    (∀ n, rng.randF n < 1) →
    (∀ n, 0 ≤ rng.unifF n) →
    (∀ d ∈ nodes, 0 ≤ d.battery_level) →
    ∃ ns sim' rng' occ',
      sim.advanceGroup rng nodes occ t 1 = .ok (ns, sim', rng', occ') ∧
      List.Forall₂ (fun d d' =>
        d'.identifier = d.identifier ∧ d'.location = d.location ∧
        d'.compute_efficiency_flops_per_milliamp = d.compute_efficiency_flops_per_milliamp ∧
        d'.battery_level ≤ d.battery_level) nodes ns := by
  induction nodes with
  | nil =>
    intro sim rng occ t _ _ _
    exact ⟨[], sim, rng, occ, advanceGroup_nil sim rng occ t 1, List.Forall₂.nil⟩
  | cons node rest ih =>
    intro sim rng occ t hr hu hb
    have hmove := moveNode_idle_one sim rng node
      (setDiscard occ (node.location.x, node.location.y)) t (hr _)
    have hd : 1 / 20 ≤
        1 / 20 + (7 / 20 - 1 / 20) * rng.unifF rng.unifIdx := by
      have h0 : (0 : ℚ) ≤ (7 / 20 - 1 / 20) * rng.unifF rng.unifIdx :=
        mul_nonneg (by norm_num) (hu _)
      linarith
    have hbat : ((drainBattery node { rng with randIdx := rng.randIdx + 1 }).1).battery_level
        ≤ node.battery_level := by
      dsimp only [drainBattery, Rng.uniform]
      exact drained_le _ _ (hb node (by simp)) hd
    obtain ⟨ns, sim', rng', occ', hrec, hall⟩ :=
      ih (if t = "dog" then sim.clearAlert node.identifier else sim)
        (drainBattery node { rng with randIdx := rng.randIdx + 1 }).2
        (setInsert (setDiscard occ (node.location.x, node.location.y))
          (((drainBattery node { rng with randIdx := rng.randIdx + 1 }).1).location.x,
            ((drainBattery node { rng with randIdx := rng.randIdx + 1 }).1).location.y))
        t (fun n => hr n) (fun n => hu n)
        (fun d hd' => hb d (by simp [hd']))
    refine ⟨(drainBattery node { rng with randIdx := rng.randIdx + 1 }).1 :: ns,
      sim', rng', occ', ?_, List.Forall₂.cons ⟨rfl, rfl, rfl, hbat⟩ hall⟩
    rw [advanceGroup_cons, hmove]
    dsimp only
    rw [hrec]

/-- C8: on a tick not divisible by the dog move interval, every dog is
forced idle — after `MeshSimulation.step` each dog keeps its identifier,
location and compute efficiency, and only its battery level changes
(it never increases; the drain is clamped at zero). -/
theorem dogs_forced_idle_off_interval (sim : MeshSimulation) (rng : Rng)
    (out : MeshSimulation × Rng)
    (hrand : ∀ n, rng.randF n < 1)
    (hunif : ∀ n, 0 ≤ rng.unifF n)
    (hbatt : ∀ d ∈ sim.dogs, 0 ≤ d.battery_level)
    (htick : (sim.tick + 1) % dogMoveInterval ≠ 0)
    (hstep : sim.step rng = .ok out) :
    List.Forall₂ (fun d d' =>
      d'.identifier = d.identifier ∧ d'.location = d.location ∧
      d'.compute_efficiency_flops_per_milliamp = d.compute_efficiency_flops_per_milliamp ∧
      d'.battery_level ≤ d.battery_level) sim.dogs out.1.dogs := by
  unfold MeshSimulation.step at hstep
  dsimp only at hstep
  split at hstep
  · simp at hstep
  · rename_i cats1 sim2 rng1 occ hcat
    obtain ⟨⟨hc1, hc2, hc3⟩, hd1, hd2⟩ := advanceGroup_frame _ _ _ _ _ _ _ _ _ _ hcat
    have htick2 : ¬ (sim2.tick % dogMoveInterval = 0) := by
      rw [hc3]
      exact htick
    rw [if_neg htick2] at hstep
    have hr1 : ∀ n, rng1.randF n < 1 := by
      rw [hd1]
      exact hrand
    have hu1 : ∀ n, 0 ≤ rng1.unifF n := by
      rw [hd2]
      exact hunif
    have hb1 : ∀ d ∈ sim2.dogs, 0 ≤ d.battery_level := by
      rw [hc2]
      exact hbatt
    obtain ⟨ns, simf, rngf, occf, heq, hall⟩ :=
      advanceGroup_idle_one sim2.dogs { sim2 with cats := cats1 } rng1
        (addCoords (addCoords [] cats1) sim2.dogs) "dog" hr1 hu1 hb1
    rw [heq] at hstep
    simp only [Except.ok.injEq] at hstep
    rw [← hstep]
    rw [hc2] at hall
    exact hall

theorem dogs_forced_idle_off_interval_witness :
    List.Forall₂ (fun d d' =>
      d'.identifier = d.identifier ∧ d'.location = d.location ∧
      d'.compute_efficiency_flops_per_milliamp = d.compute_efficiency_flops_per_milliamp ∧
      d'.battery_level ≤ d.battery_level) c8Sim.dogs
      (({ (({ c8Sim with tick := 1, cats := [] } : MeshSimulation).clearAlert "dog-1") with
          dogs := [(drainBattery c8Dog { c8Rng with randIdx := 1 }).1] } : MeshSimulation),
        (drainBattery c8Dog { c8Rng with randIdx := 1 }).2).1.dogs :=
  dogs_forced_idle_off_interval c8Sim c8Rng
    ({ (({ c8Sim with tick := 1, cats := [] } : MeshSimulation).clearAlert "dog-1") with
        dogs := [(drainBattery c8Dog { c8Rng with randIdx := 1 }).1] },
      (drainBattery c8Dog { c8Rng with randIdx := 1 }).2)
    (fun _ => by norm_num [c8Rng]) (fun _ => by norm_num [c8Rng])
    (fun d hd => by
      simp only [c8Sim, List.mem_singleton] at hd
      subst hd
      norm_num [c8Dog])
    (by decide) rfl

/-- C1 (code-bug evidence): from distinct starting cells (2,2) and (2,1),
one tick ends with both cats on (2,1) — the first cat's fallback move is
not blocked because the cats' occupied set is initialized with dog
positions only, and the second cat then idles in place. -/
theorem mesh_step_duplicate_cat_positions :
    c1Sim.cats.map (fun c => (c.location.x, c.location.y)) = [(2, 2), (2, 1)] ∧
    (match c1Sim.step c1Rng with
      | .ok (s, _) => some (s.cats.map (fun c => (c.location.x, c.location.y)))
      | .error _ => none) = some [(2, 1), (2, 1)] := ⟨rfl, rfl⟩

end Compotastic
